import Mathlib

/-!
Shallow embedding of the dependify dependency-injection engine
(src/dependify/dependency.py and src/dependify/container.py), together
with a model of the constructor-synthesis binder whose source
(decorators.py / context.py) is exercised only through the unit tests.

Modelling conventions:
* Python objects are `Value`s; objects constructed at runtime carry an
  allocation id (`Value.obj`, `Value.vlist`) so that Python `is`
  (identity) is equality of the embedded values.
* A Python class or callable used as a registration target is a
  `PyType`: its name, its introspectable constructor parameters
  (name, optional annotation, optional default — `inspect.signature`),
  a `TargetKind` saying what calling it does, and its truthiness
  (classes and functions are always truthy in Python, but a callable
  object may define a falsy bool conversion).
* Registry keys are the target class; classes are identified by their
  name (`String`) in the model, so distinct classes get distinct names.
* Python dicts of dependencies live in an explicit `Heap`, because
  `Container.__init__(self, dependencies: dict = {})` evaluates its
  default argument once at function-definition time: every
  `Container()` call that omits the argument binds the very same dict
  object.  That dict is heap slot 0.  The heap also carries the
  allocation counter and a log of every target invocation (used to
  state "the target is (not) re-invoked").
-/

/-- Embedded Python values.  `Value.none` is Python's `None`, which is
also the container's not-found sentinel.  `obj id cls attrs` is an
object with identity `id`, class `cls` and attribute dict `attrs`;
`vlist id elems` is a list object with identity `id`. -/
inductive Value where
  | none : Value
  | vint : Int → Value
  | vstr : String → Value
  | vbool : Bool → Value
  | vlist : Nat → List Value → Value
  | obj : Nat → String → List (String × Value) → Value

/-- Python truthiness (`bool(v)`): `None`, `0`, `""`, `False` and empty
lists are falsy; plain objects are truthy. -/
def Value.truthy : Value → Bool
  | Value.none => false
  | Value.vint n => decide (n ≠ 0)
  | Value.vstr s => decide (s ≠ "")
  | Value.vbool b => b
  | Value.vlist _ es => !es.isEmpty
  | Value.obj _ _ _ => true

/-- Python's `v is None` test: `None` is a singleton, so the identity
test distinguishes exactly the `Value.none` constructor. -/
def Value.isNone : Value → Bool
  | Value.none => true
  | _ => false

/-- The name of the runtime class of a value (`type(v).__name__`). -/
def Value.className : Value → String
  | Value.none => "NoneType"
  | Value.vint _ => "int"
  | Value.vstr _ => "str"
  | Value.vbool _ => "bool"
  | Value.vlist _ _ => "list"
  | Value.obj _ cls _ => cls

/-- One formal parameter of a target's signature, as reported by
`inspect.signature`: its name, its annotation (`Option.none` models
`inspect._empty`, i.e. no annotation) and its default value
(`Option.none` models no default).  The annotation names the annotated
class. -/
structure Param where
  name : String
  anno : Option String
  default : Option Value

/-- What invoking a target does.  `mkObj` is a class constructor that
stores the keyword arguments it receives as the attributes of a fresh
object (the common `self.x = x` constructor).  `mkList elems` is a
factory returning a fresh list object with the given elements (for
example `lambda: []`).  `const v` is a factory returning the fixed,
pre-existing value `v` (for example `lambda: x` for a global `x`). -/
inductive TargetKind where
  | mkObj : TargetKind
  | mkList : List Value → TargetKind
  | const : Value → TargetKind

/-- A Python class or callable, as far as the engine observes it:
registry key (its `name`), signature (`params`), call behaviour
(`kind`) and Python truthiness (`truthy`). -/
structure PyType where
  name : String
  params : List Param
  kind : TargetKind
  truthy : Bool

/-- Allocation state: `ctr` numbers freshly constructed objects (so two
objects made by different constructor invocations are never identical),
and `log` records the name of every target that gets invoked, in
order. -/
structure Alloc where
  ctr : Nat
  log : List String

/-- Invoke a target with keyword arguments (`self.target(**kwargs)`).
Every invocation is logged; `mkObj` and `mkList` allocate a fresh
identity. -/
def callTarget (t : PyType) (kwargs : List (String × Value)) (a : Alloc) :
    Value × Alloc :=
  match t.kind with
  | TargetKind.mkObj =>
      (Value.obj a.ctr t.name kwargs,
       { ctr := a.ctr + 1, log := a.log ++ [t.name] })
  | TargetKind.mkList es =>
      (Value.vlist a.ctr es,
       { ctr := a.ctr + 1, log := a.log ++ [t.name] })
  | TargetKind.const v => (v, { a with log := a.log ++ [t.name] })

/-- Structure `Dependency` (src/dependify/dependency.py, lines 7-37): the target,
the cached flag, the cache slot `inst` (Python attribute `instance`,
initially `None`), and the two signature snapshots `types` and
`defaults` built by the dict comprehensions of `__init__`. -/
structure Dependency where
  target : PyType
  cached : Bool
  inst : Value
  types : List (String × String)
  defaults : List (String × Value)

/-- Constructor `Dependency.__init__` (dependency.py lines 18-37): snapshot the
annotated parameters into `types` and the defaulted parameters into
`defaults`; the cache slot starts as `None`. -/
def Dependency.init (symbol : PyType) (cached : Bool) : Dependency :=
  { target := symbol
    cached := cached
    inst := Value.none
    types := symbol.params.filterMap (fun p => p.anno.map (fun a => (p.name, a)))
    defaults := symbol.params.filterMap (fun p => p.default.map (fun d => (p.name, d))) }

/-- Method `Dependency.resolve` (dependency.py lines 39-54): when `cached`,
re-invoke only while the stored instance is falsy (`if not
self.instance`), store the result and return the stored instance;
otherwise invoke the target every time.  Returns the value, the
possibly updated dependency and the allocation state. -/
def Dependency.resolve (d : Dependency) (kwargs : List (String × Value))
    (a : Alloc) : Value × Dependency × Alloc :=
  if d.cached then
    if d.inst.truthy then (d.inst, d, a)
    else
      let p := callTarget d.target kwargs a
      (p.1, { d with inst := p.1 }, p.2)
  else
    let p := callTarget d.target kwargs a
    (p.1, d, p.2)

/-- A Python dict mapping registry keys (class names) to dependencies. -/
abbrev Dict := List (String × Dependency)

/-- Python dict lookup `l[k]` / `k in l` combined: the value stored at
key `k`, if any. -/
def lookupKey {α : Type} : List (String × α) → String → Option α
  | [], _ => Option.none
  | (k', v) :: rest, k => if k' = k then Option.some v else lookupKey rest k

/-- Python dict assignment `l[k] = v`: overwrite in place if the key is
present, append otherwise. -/
def setKey {α : Type} : List (String × α) → String → α → List (String × α)
  | [], k, v => [(k, v)]
  | (k', v') :: rest, k, v =>
      if k' = k then (k, v) :: rest else (k', v') :: setKey rest k v

/-- The interpreter heap: the dependency dicts that exist (slot 0 is
the dict created once for the default argument of
`Container.__init__`), plus the allocation state. -/
structure Heap where
  dicts : List Dict
  alloc : Alloc

/-- The dict stored at heap slot `r` (an out-of-range slot reads as an
empty dict; it is never written). -/
def nthDict : List Dict → Nat → Dict
  | [], _ => []
  | d :: _, 0 => d
  | _ :: rest, n + 1 => nthDict rest n

/-- Replace the dict at slot `r` (no-op when out of range, mirroring
that such a slot does not exist). -/
def setNth : List Dict → Nat → Dict → List Dict
  | [], _, _ => []
  | _ :: rest, 0, d => d :: rest
  | x :: rest, n + 1, d => x :: setNth rest n d

/-- The dict a container with `__dependencies` reference `r` sees. -/
def dictAt (h : Heap) (r : Nat) : Dict := nthDict h.dicts r

/-- Write an entry into the dict at slot `r` and install a new
allocation state. -/
def setEntry (h : Heap) (r : Nat) (s : String) (d : Dependency) (a : Alloc) :
    Heap :=
  { dicts := setNth h.dicts r (setKey (dictAt h r) s d), alloc := a }

/-- Class `Container` (src/dependify/container.py): the object itself only
holds the reference to its `__dependencies` dict.  `Container()` with
the argument omitted binds the one dict object that was allocated when
`__init__` was defined (heap slot 0) — Python evaluates default
arguments once. -/
structure Container where
  ref : Nat

/-- Call `Container()` — dependencies argument omitted, so the shared
default-argument dict (slot 0) is used (container.py line 28). -/
def Container.initDefault : Container := { ref := 0 }

/-- Call `Container(dependencies=d)` with a caller-supplied fresh dict:
allocates the dict as a new heap slot. -/
def Container.initFresh (h : Heap) (d : Dict) : Container × Heap :=
  ({ ref := h.dicts.length }, { h with dicts := h.dicts ++ [d] })

/-- Method `Container.register_dependency` (container.py lines 37-45):
`self.__dependencies[symbol] = dependency`. -/
def Container.register_dependency (c : Container) (h : Heap) (s : String)
    (d : Dependency) : Heap :=
  setEntry h c.ref s d h.alloc

/-- Method `Container.register` (container.py lines 47-60): `if not
replacement: replacement = symbol` — a missing or *falsy* replacement
makes the symbol its own target — then store a fresh `Dependency`. -/
def Container.register (c : Container) (h : Heap) (symbol : PyType)
    (replacement : Option PyType) (cached : Bool) : Heap :=
  let repl :=
    match replacement with
    | Option.some r => if r.truthy then r else symbol
    | Option.none => symbol
  c.register_dependency h symbol.name (Dependency.init repl cached)

/-- Method `Container.has` (container.py lines 87-97). -/
def Container.has (c : Container) (h : Heap) (s : String) : Bool :=
  (lookupKey (dictAt h c.ref) s).isSome

/-- The loop of `Container.resolve` (container.py lines 80-83): for
each annotated parameter, recursively resolve its declared type with
the resolver `res` and, when the result is not `None`, override that
keyword argument. -/
def resolveTypesWith (res : Heap → String → Value × Heap) :
    Heap → List (String × String) → List (String × Value) →
    List (String × Value) × Heap
  | h, [], kwargs => (kwargs, h)
  | h, nt :: rest, kwargs =>
    let p := res h nt.2
    resolveTypesWith res p.2 rest
      (if p.1.isNone then kwargs else setKey kwargs nt.1 p.1)

/-- Method `Container.resolve` (container.py lines 62-85), with a fuel bound
on the recursion depth (the Python code recurses unboundedly on cyclic
registrations; every theorem below supplies enough fuel).  Steps: an
unregistered symbol returns `None` with the state untouched; otherwise
the keyword arguments start as the recipe's defaults, the annotated
parameters are recursively resolved and override them, and finally
`dependency.resolve(**kwargs)` runs.  The dependency is re-read before
that final call because the Python local `dependency` is a reference
into the dict, so cache writes made by the recursive calls are visible
through it; the inner `Option.none` arm is unreachable since entries
are never removed. -/
def Container.resolve (c : Container) : Nat → Heap → String → Value × Heap
  | 0, h, _ => (Value.none, h)
  | fuel + 1, h, s =>
    match lookupKey (dictAt h c.ref) s with
    | Option.none => (Value.none, h)
    | Option.some dep =>
      let p := resolveTypesWith (Container.resolve c fuel) h dep.types dep.defaults
      match lookupKey (dictAt p.2 c.ref) s with
      | Option.none => (Value.none, p.2)
      | Option.some dep2 =>
        let q := Dependency.resolve dep2 p.1 p.2.alloc
        (q.1, setEntry p.2 c.ref s q.2.1 q.2.2)

/-- The heap as the Python interpreter leaves it right after the module
is loaded: only the default-argument dict of `Container.__init__`
exists (slot 0, empty), nothing allocated, nothing invoked. -/
def heap0 : Heap := { dicts := [[]], alloc := { ctr := 0, log := [] } }

/-- A class with no constructor parameters, e.g. `class A: pass`. -/
def plainClass (n : String) : PyType :=
  { name := n, params := [], kind := TargetKind.mkObj, truthy := true }

/-- Modelled from the spec: one entry of the Binder's Field
Specification (§3, §4.4) — ordered (name, declared type, optional
default).  The binder source (decorators.py) is not under src/, only
its unit tests are. -/
structure FieldSpec where
  name : String
  type : String
  default : Option Value

/-- Modelled from the spec: the Binder's error taxonomy (§7).
`typeMismatch field expected actual` carries the two type names of the
"Expected <type>, got <actual>" message. -/
inductive BindError where
  | unexpectedPositional : BindError
  | duplicateArgument : String → BindError
  | unknownArgument : String → BindError
  | missingArguments : List String → BindError
  | typeMismatch : String → String → String → BindError

/-- Modelled from the spec: the error messages of §7 and the unit
tests (test/unit/test_injected.py) — in particular the MissingArguments
message lists every missing field name, comma-joined. -/
def BindError.message : BindError → String
  | BindError.unexpectedPositional => "Unexpected positional argument"
  | BindError.duplicateArgument f =>
      f ++ " already provided as a positional argument"
  | BindError.unknownArgument k => k ++ " not found in class"
  | BindError.missingArguments l =>
      "Missing arguments: " ++ String.intercalate ", " l
  | BindError.typeMismatch _ e a => "Expected " ++ e ++ ", got " ++ a

/-- Modelled from the spec: binding step 1 (§4.4) — walk the Field
Specification in declaration order, binding positional argument `i` to
field `i`'s name; more positional arguments than declared fields is an
error. -/
def bindPositional (fields : List FieldSpec) (args : List Value) :
    Except BindError (List (String × Value)) :=
  if fields.length < args.length then
    Except.error BindError.unexpectedPositional
  else Except.ok (List.zip (fields.map FieldSpec.name) args)

/-- Modelled from the spec: binding step 2 (§4.4) — each named
argument must not collide with a positionally bound field and must
match a declared field name. -/
def checkNamed (fields : List FieldSpec) (pos : List (String × Value)) :
    List (String × Value) → Option BindError
  | [] => Option.none
  | (k, _) :: rest =>
    if (lookupKey pos k).isSome then
      Option.some (BindError.duplicateArgument k)
    else if fields.all (fun f => f.name ≠ k) then
      Option.some (BindError.unknownArgument k)
    else checkNamed fields pos rest

/-- Modelled from the spec: the fallback chain of binding step 3
(§4.4) for one field not explicitly supplied — (a) if the field's
declared type is registered, attempt `resolve` and use the result when
it succeeds (is not the not-found sentinel); (b) else the literal
default, if any; (c) else unresolved.  Registered-type lookup is
attempted before consulting the default. -/
def fillField (c : Container) (fuel : Nat) (h : Heap) (f : FieldSpec) :
    Option Value × Heap :=
  if Container.has c h f.type then
    let p := Container.resolve c fuel h f.type
    if p.1.isNone then (f.default, p.2) else (Option.some p.1, p.2)
  else (f.default, h)

/-- Modelled from the spec: binding step 3 over all declared fields in
order — an explicitly bound field keeps its supplied value, any other
field goes through the fallback chain; `Option.none` marks a field
left unresolved. -/
def fillAll (c : Container) (fuel : Nat) (bound : List (String × Value)) :
    Heap → List FieldSpec → List (String × Option Value) × Heap
  | h, [] => ([], h)
  | h, f :: rest =>
    match lookupKey bound f.name with
    | Option.some v =>
      let q := fillAll c fuel bound h rest
      ((f.name, Option.some v) :: q.1, q.2)
    | Option.none =>
      let p := fillField c fuel h f
      let q := fillAll c fuel bound p.2 rest
      ((f.name, p.1) :: q.1, q.2)

/-- Modelled from the spec: binding step 5 (§4.4) — every explicitly
supplied value is checked against its field's declared type; values
filled by registry auto-injection or defaults are exempt. -/
def typeCheckExplicit (fields : List FieldSpec) :
    List (String × Value) → Option BindError
  | [] => Option.none
  | (k, v) :: rest =>
    match fields.find? (fun f => f.name = k) with
    | Option.some f =>
      if v.className = f.type then typeCheckExplicit fields rest
      else Option.some (BindError.typeMismatch k f.type v.className)
    | Option.none => typeCheckExplicit fields rest

/-- Modelled from the spec: the synthesized constructor (§4.4, §6
"injected-equivalent"; source decorators.py is missing from src/).
Executes binding steps 1-6 in order: positional binding, named-argument
validation, the per-field fallback chain, the aggregated
missing-arguments check, type-checking of explicit values, and finally
direct field assignment onto a fresh instance.  An error construction
returns no object. -/
def bindCall (clsName : String) (fields : List FieldSpec) (c : Container)
    (fuel : Nat) (h : Heap) (args : List Value)
    (kwargs : List (String × Value)) : Except BindError Value × Heap :=
  match bindPositional fields args with
  | Except.error e => (Except.error e, h)
  | Except.ok pos =>
    match checkNamed fields pos kwargs with
    | Option.some e => (Except.error e, h)
    | Option.none =>
      let ex := pos ++ kwargs
      let p := fillAll c fuel ex h fields
      let missing := (p.1.filter (fun x => x.2.isNone)).map Prod.fst
      if missing.isEmpty then
        match typeCheckExplicit fields ex with
        | Option.some e => (Except.error e, p.2)
        | Option.none =>
          (Except.ok (Value.obj p.2.alloc.ctr clsName
             (p.1.map (fun x => (x.1, x.2.getD Value.none)))),
           { p.2 with alloc := { ctr := p.2.alloc.ctr + 1,
                                 log := p.2.alloc.log ++ [clsName] } })
      else (Except.error (BindError.missingArguments missing), p.2)

/-- Call `Container()` — a container created with the dependencies argument
omitted: it references the shared default-argument dict. -/
def contD : Container := Container.initDefault

/-- A second `Container()` call, also omitting the argument.  It is a
distinct Python object, but the model only records what the engine
reads: the `__dependencies` reference, which is the same dict. -/
def contD2 : Container := Container.initDefault

/-- Python `class A: pass`. -/
def clsA : PyType := plainClass "A"

/-- A factory returning a fresh empty list on every call
(`lambda: []`): each result is a brand-new object, but falsy. -/
def listFactory : PyType :=
  { name := "L", params := [], kind := TargetKind.mkList [], truthy := true }

/-- A factory returning one fixed pre-existing object (`lambda: x` for
a module-level `x = X()`). -/
def constFactory : PyType :=
  { name := "F", params := [], kind := TargetKind.const (Value.obj 7 "X" []),
    truthy := true }

/-- A callable object whose bool conversion is `False` — a legal
`Type | Callable` replacement value that is falsy without being
`None`. -/
def falsyCallable : PyType :=
  { name := "FC", params := [], kind := TargetKind.mkObj, truthy := false }

/-- Python `class A: def __init__(self, b: B): self.b = b`. -/
def clsAB : PyType :=
  { name := "A",
    params := [{ name := "b", anno := Option.some "B",
                 default := Option.none }],
    kind := TargetKind.mkObj, truthy := true }

/-- A class whose single parameter has both a literal default and an
annotation: `def __init__(self, p: B = 3)`. -/
def clsPD : PyType :=
  { name := "A",
    params := [{ name := "p", anno := Option.some "B",
                 default := Option.some (Value.vint 3) }],
    kind := TargetKind.mkObj, truthy := true }

/-- State after `Container().register(L, cached=True)` for the
fresh-empty-list factory. -/
def heapL : Heap := Container.register contD heap0 listFactory Option.none true

/-- State after `Container().register(A, lambda: x)` (not cached). -/
def heapConst : Heap :=
  Container.register contD heap0 clsA (Option.some constFactory) false

/-- State after `Container().register(A)` (not cached). -/
def heapA : Heap := Container.register contD heap0 clsA Option.none false

/-- State after `Container().register(A, cached=True)`. -/
def heapAcached : Heap :=
  Container.register contD heap0 clsA Option.none true

/-- State after the first `resolve(A)` on the cached registration: the
cache slot now holds the (truthy) first instance. -/
def heapAc1 : Heap := (Container.resolve contD 2 heapAcached "A").2

/-- The dependency stored for `A` in `heapAc1`. -/
def depA1 : Dependency :=
  { target := clsA, cached := true, inst := Value.obj 0 "A" [],
    types := [], defaults := [] }

/-- State after registering the `p: B = 3` class alone. -/
def heapPD : Heap := Container.register contD heap0 clsPD Option.none false

/-- State after additionally registering `B`. -/
def heapPDB : Heap :=
  Container.register contD heapPD (plainClass "B") Option.none false

/-- State after registering `A` (with a `b: B` parameter) and `B`. -/
def heapAB : Heap :=
  Container.register contD
    (Container.register contD heap0 clsAB Option.none false)
    (plainClass "B") Option.none false

/-- State after `Container().register(Database)`. -/
def heapDb : Heap :=
  Container.register contD heap0 (plainClass "Database") Option.none false

/-- The field specification of the binder scenario from
test_injected.py (`Service`): a required plain field and a field whose
declared type is registered *and* which carries a literal default
(`db: Database = None`). -/
def svcFields : List FieldSpec :=
  [{ name := "name", type := "str", default := Option.none },
   { name := "db", type := "Database", default := Option.some Value.none }]

/-- The field specification of `MultiClass` from
test_injected.py: four required fields of unregistered types. -/
def multiFields : List FieldSpec :=
  [{ name := "a", type := "int", default := Option.none },
   { name := "b", type := "str", default := Option.none },
   { name := "c", type := "bool", default := Option.none },
   { name := "d", type := "float", default := Option.none }]

/-- The declarative description of the fields a synthesized-constructor
call leaves unresolved: declared, not explicitly supplied, and without
a literal default (their declared types being unregistered).  Used to
state what the aggregated missing-arguments error must contain. -/
def missingOf (kwargs : List (String × Value)) (fields : List FieldSpec) :
    List String :=
  (fields.filter
    (fun f => (lookupKey kwargs f.name).isNone && f.default.isNone)).map
    FieldSpec.name

/-- The argument-assembly pass of one `Container.resolve` step, named
so the lemmas below can speak about it. -/
def rtwOf (c : Container) (n : Nat) (h : Heap) (dep : Dependency) :
    List (String × Value) × Heap :=
  resolveTypesWith (Container.resolve c n) h dep.types dep.defaults

theorem lookupKey_setKey_self {α : Type} (l : List (String × α)) (k : String)
    (v : α) : lookupKey (setKey l k v) k = Option.some v := by
  induction l with
  | nil => simp [setKey, lookupKey]
  | cons x rest ih =>
    obtain ⟨k', v'⟩ := x
    by_cases hx : k' = k
    · subst hx; simp [setKey, lookupKey]
    · simp [setKey, hx, lookupKey, ih]

theorem lookupKey_setKey_ne {α : Type} (l : List (String × α)) (k k' : String)
    (v : α) (hkk : k ≠ k') :
    lookupKey (setKey l k v) k' = lookupKey l k' := by
  induction l with
  | nil => simp [setKey, lookupKey, hkk]
  | cons x rest ih =>
    obtain ⟨a, b⟩ := x
    by_cases ha : a = k
    · subst ha; simp [setKey, lookupKey, hkk]
    · by_cases ha' : a = k'
      · subst ha'; simp [setKey, ha, lookupKey]
      · simp [setKey, ha, lookupKey, ha', ih]

theorem setKey_setKey_same {α : Type} (l : List (String × α)) (k : String)
    (v w : α) : setKey (setKey l k v) k w = setKey l k w := by
  induction l with
  | nil => simp [setKey]
  | cons x rest ih =>
    obtain ⟨a, b⟩ := x
    by_cases ha : a = k
    · subst ha; simp [setKey]
    · simp [setKey, ha, ih]

theorem nthDict_oob (ds : List Dict) (i : Nat) (hi : ds.length ≤ i) :
    nthDict ds i = [] := by
  induction ds generalizing i with
  | nil => cases i <;> rfl
  | cons x rest ih =>
    cases i with
    | zero => simp at hi
    | succ n => exact ih n (by simpa using hi)

theorem setNth_oob (ds : List Dict) (i : Nat) (d : Dict)
    (hi : ds.length ≤ i) : setNth ds i d = ds := by
  induction ds generalizing i with
  | nil => rfl
  | cons x rest ih =>
    cases i with
    | zero => simp at hi
    | succ n => simp [setNth, ih n (by simpa using hi)]

theorem nthDict_setNth_self (ds : List Dict) (i : Nat) (d : Dict)
    (hi : i < ds.length) : nthDict (setNth ds i d) i = d := by
  induction ds generalizing i with
  | nil => simp at hi
  | cons x rest ih =>
    cases i with
    | zero => rfl
    | succ n => exact ih n (by simpa using hi)

theorem lookup_dictAt_lt (h : Heap) (r : Nat) (s : String) (d : Dependency)
    (hl : lookupKey (dictAt h r) s = Option.some d) : r < h.dicts.length := by
  by_contra hr
  rw [dictAt, nthDict_oob _ _ (Nat.le_of_not_lt hr)] at hl
  simp [lookupKey] at hl

theorem dictAt_setEntry_self (h : Heap) (r : Nat) (s : String)
    (d : Dependency) (a : Alloc) (hr : r < h.dicts.length) :
    dictAt (setEntry h r s d a) r = setKey (dictAt h r) s d := by
  simp only [setEntry, dictAt]
  exact nthDict_setNth_self _ _ _ hr

/-- Resolving an unregistered symbol returns the not-found sentinel and
leaves the interpreter state untouched (container.py lines 72-73). -/
theorem resolve_not_found (c : Container) (fuel : Nat) (h : Heap) (s : String)
    (hs : lookupKey (dictAt h c.ref) s = Option.none) :
    Container.resolve c fuel h s = (Value.none, h) := by
  cases fuel with
  | zero => rfl
  | succ n => simp [Container.resolve, hs]

/-- A dependency whose cache slot `resolve` cannot mutate: either it is
not cached, or a truthy instance is already stored.  Only a cached
dependency with a falsy slot is written by `Dependency.resolve`. -/
def Stable (d : Dependency) : Prop := d.cached = true → d.inst.truthy = true

theorem depResolve_dep_stable (d : Dependency) (kwargs : List (String × Value))
    (a : Alloc) (hd : Stable d) : (Dependency.resolve d kwargs a).2.1 = d := by
  unfold Dependency.resolve
  cases hc : d.cached with
  | false => simp [hc]
  | true => simp [hc, hd hc]

theorem resolveTypesWith_preserve (res : Heap → String → Value × Heap)
    (Q : Heap → Prop) (hres : ∀ h s, Q h → Q (res h s).2) :
    ∀ (types : List (String × String)) (h : Heap)
      (kwargs : List (String × Value)),
      Q h → Q (resolveTypesWith res h types kwargs).2 := by
  intro types
  induction types with
  | nil => intro h kwargs hq; simpa [resolveTypesWith] using hq
  | cons nt rest ih =>
    intro h kwargs hq
    simp only [resolveTypesWith]
    exact ih _ _ (hres h nt.2 hq)

/-- Resolution never touches a stable registry entry: a
non-cached entry, or a cached entry whose instance is already truthy,
reads the same after any resolution. -/
theorem resolve_preserve (fuel : Nat) :
    ∀ (c : Container) (h : Heap) (t s : String) (d : Dependency),
      lookupKey (dictAt h c.ref) s = Option.some d → Stable d →
      lookupKey (dictAt (Container.resolve c fuel h t).2 c.ref) s =
        Option.some d := by
  induction fuel with
  | zero => intro c h t s d hl _; simpa [Container.resolve] using hl
  | succ n ih =>
    intro c h t s d hl hst
    cases hlt : lookupKey (dictAt h c.ref) t with
    | none => simpa [Container.resolve, hlt] using hl
    | some dep =>
      simp only [Container.resolve, hlt]
      set P := resolveTypesWith (Container.resolve c n) h dep.types dep.defaults with hP
      have hp : lookupKey (dictAt P.2 c.ref) s = Option.some d :=
        resolveTypesWith_preserve _
          (fun h' => lookupKey (dictAt h' c.ref) s = Option.some d)
          (fun h' t' hq => ih c h' t' s d hq hst) dep.types h dep.defaults hl
      cases hlt2 : lookupKey (dictAt P.2 c.ref) t with
      | none => simpa [hlt2] using hp
      | some dep2 =>
        simp only [hlt2]
        have href : c.ref < P.2.dicts.length := lookup_dictAt_lt _ _ _ _ hp
        by_cases hts : t = s
        · subst hts
          have hdd : dep2 = d := by
            rw [hp] at hlt2
            exact (Option.some.inj hlt2).symm
          subst hdd
          rw [dictAt_setEntry_self _ _ _ _ _ href,
            depResolve_dep_stable _ _ _ hst, lookupKey_setKey_self]
        · rw [dictAt_setEntry_self _ _ _ _ _ href,
            lookupKey_setKey_ne _ _ _ _ hts]
          exact hp

theorem callTarget_alloc (t : PyType) (kwargs : List (String × Value))
    (a : Alloc) : a.ctr ≤ (callTarget t kwargs a).2.ctr ∧
      (callTarget t kwargs a).2.log = a.log ++ [t.name] := by
  cases t
  case mk name params kind truthy =>
    cases kind <;> simp [callTarget]

theorem depResolve_alloc (d : Dependency) (kwargs : List (String × Value))
    (a : Alloc) : a.ctr ≤ (Dependency.resolve d kwargs a).2.2.ctr ∧
      ∃ e, (Dependency.resolve d kwargs a).2.2.log = a.log ++ e := by
  unfold Dependency.resolve
  cases hc : d.cached with
  | false =>
    simp only [hc, Bool.false_eq_true, if_false]
    exact ⟨(callTarget_alloc d.target kwargs a).1,
      [d.target.name], (callTarget_alloc d.target kwargs a).2⟩
  | true =>
    cases ht : d.inst.truthy with
    | true => simp [hc, ht]
    | false =>
      simp only [hc, ht, if_true, Bool.false_eq_true, if_false]
      exact ⟨(callTarget_alloc d.target kwargs a).1,
        [d.target.name], (callTarget_alloc d.target kwargs a).2⟩

/-- Resolution only ever advances the allocation counter and appends to
the invocation log. -/
theorem resolve_alloc_mono (fuel : Nat) :
    ∀ (c : Container) (h : Heap) (t : String),
      h.alloc.ctr ≤ (Container.resolve c fuel h t).2.alloc.ctr ∧
      ∃ e, (Container.resolve c fuel h t).2.alloc.log = h.alloc.log ++ e := by
  induction fuel with
  | zero => intro c h t; exact ⟨Nat.le_refl _, [], by simp [Container.resolve]⟩
  | succ n ih =>
    intro c h t
    cases hlt : lookupKey (dictAt h c.ref) t with
    | none => simp [Container.resolve, hlt]
    | some dep =>
      simp only [Container.resolve, hlt]
      set P := resolveTypesWith (Container.resolve c n) h dep.types dep.defaults with hP
      have hq : h.alloc.ctr ≤ P.2.alloc.ctr ∧
          ∃ e, P.2.alloc.log = h.alloc.log ++ e :=
        resolveTypesWith_preserve _
          (fun h' => h.alloc.ctr ≤ h'.alloc.ctr ∧
            ∃ e, h'.alloc.log = h.alloc.log ++ e)
          (fun h' t' hq' => by
            obtain ⟨hc', e', he'⟩ := hq'
            obtain ⟨hc'', e'', he''⟩ := ih c h' t'
            exact ⟨Nat.le_trans hc' hc'', e' ++ e'',
              by rw [he'', he', List.append_assoc]⟩)
          dep.types h dep.defaults ⟨Nat.le_refl _, [], by simp⟩
      cases hlt2 : lookupKey (dictAt P.2 c.ref) t with
      | none => exact hq
      | some dep2 =>
        obtain ⟨hc1, e1, he1⟩ := hq
        obtain ⟨hc2, e2, he2⟩ := depResolve_alloc dep2 P.1 P.2.alloc
        exact ⟨Nat.le_trans hc1 hc2, e1 ++ e2,
          by simp only [setEntry]; rw [he2, he1, List.append_assoc]⟩

/-- C5: resolving a symbol with no registered recipe returns the
not-found sentinel `None` (no exception), leaves the registry state
untouched, and therefore returns `None` again on every later call —
independent of which other (unrelated) symbols are registered, since
only the absence of the requested symbol's entry is assumed. -/
theorem C5_resolve_unregistered (c : Container) (fuel fuel' : Nat) (h : Heap)
    (s : String) (hs : lookupKey (dictAt h c.ref) s = Option.none) :
    Container.resolve c fuel h s = (Value.none, h) ∧
    Container.resolve c fuel' (Container.resolve c fuel h s).2 s =
      (Value.none, h) := by
  have h1 := resolve_not_found c fuel h s hs
  exact ⟨h1, by rw [h1]; exact resolve_not_found c fuel' h s hs⟩

/-- C5 witness: in a registry where only `A` is registered, resolving
the unregistered `X` twice returns `None` both times and leaves the
state unchanged. -/
theorem C5_witness :
    Container.resolve contD 3 heapA "X" = (Value.none, heapA) ∧
    Container.resolve contD 3 (Container.resolve contD 3 heapA "X").2 "X" =
      (Value.none, heapA) :=
  C5_resolve_unregistered contD 3 3 heapA "X" rfl

theorem setNth_length (ds : List Dict) (i : Nat) (d : Dict) :
    (setNth ds i d).length = ds.length := by
  induction ds generalizing i with
  | nil => rfl
  | cons x rest ih => cases i with
    | zero => rfl
    | succ n => simp [setNth, ih n]

theorem setNth_setNth (ds : List Dict) (i : Nat) (d1 d2 : Dict) :
    setNth (setNth ds i d1) i d2 = setNth ds i d2 := by
  induction ds generalizing i with
  | nil => rfl
  | cons x rest ih => cases i with
    | zero => rfl
    | succ n => simp [setNth, ih n]

theorem register_dependency_twice (c : Container) (h : Heap) (k : String)
    (d1 d2 : Dependency) :
    Container.register_dependency c (Container.register_dependency c h k d1)
        k d2 =
      Container.register_dependency c h k d2 := by
  simp only [Container.register_dependency, setEntry, dictAt]
  by_cases href : c.ref < h.dicts.length
  · rw [nthDict_setNth_self _ _ _ href, setKey_setKey_same, setNth_setNth]
  · have hoob := Nat.le_of_not_lt href
    simp [setNth_oob _ _ _ hoob]

/-- C7: registering a symbol a second time silently replaces the stored
recipe — the resulting registry state is exactly the state a single
registration with the latest arguments produces, so every subsequent
resolution (of any symbol, with any recursion budget) reflects only the
latest registration and the earlier recipe has no further effect. -/
theorem C7_reregister_replaces (c : Container) (h : Heap) (s : PyType)
    (r1 r2 : Option PyType) (b1 b2 : Bool) :
    Container.register c (Container.register c h s r1 b1) s r2 b2 =
      Container.register c h s r2 b2 ∧
    ∀ (fuel : Nat) (t : String),
      Container.resolve c fuel
          (Container.register c (Container.register c h s r1 b1) s r2 b2) t =
        Container.resolve c fuel (Container.register c h s r2 b2) t := by
  have hmain : Container.register c (Container.register c h s r1 b1) s r2 b2 =
      Container.register c h s r2 b2 := by
    simp only [Container.register]
    exact register_dependency_twice c h s.name _ _
  exact ⟨hmain, fun fuel t => by rw [hmain]⟩

/-- C10: the `if not replacement` test of `register` is a truthiness
test, not an `is None` test — any falsy replacement (not only an
omitted or `None` one) makes the symbol its own target, exactly as
omitting the replacement does, and only a truthy replacement is stored
as the target. -/
theorem C10_falsy_replacement (c : Container) (h : Heap) (s r : PyType)
    (b : Bool) :
    (r.truthy = false →
      Container.register c h s (Option.some r) b =
        Container.register c h s Option.none b) ∧
    (r.truthy = true →
      Container.register c h s (Option.some r) b =
        Container.register_dependency c h s.name (Dependency.init r b)) := by
  constructor
  · intro hr; simp [Container.register, hr]
  · intro hr; simp [Container.register, hr]

/-- C10 witness: a falsy callable object as replacement self-registers
the symbol, exactly as an omitted replacement does; a truthy
replacement becomes the stored target. -/
theorem C10_witness :
    Container.register contD heap0 clsA (Option.some falsyCallable) false =
      Container.register contD heap0 clsA Option.none false ∧
    Container.register contD heap0 clsA (Option.some constFactory) false =
      Container.register_dependency contD heap0 "A"
        (Dependency.init constFactory false) :=
  ⟨(C10_falsy_replacement contD heap0 clsA falsyCallable false).1 rfl,
   (C10_falsy_replacement contD heap0 clsA constFactory false).2 rfl⟩

/-- C2 evaluated at the failing input: `c1 = Container()` and
`c2 = Container()` both omit the `dependencies` argument, so both bind
the single dict object that the default argument `{}` of
`Container.__init__` allocated at function-definition time
(container.py line 28; `contD` and `contD2` both hold that reference).
After `c1.register(A)` — the state `heapA` — the supposedly isolated
`c2` already reports `has(A) = True` and resolves `A` to an instance:
the two default-constructed registries are not isolated. -/
theorem C2_second_container_sees_registration :
    Container.has contD2 heapA "A" = true ∧
    (Container.resolve contD2 2 heapA "A").1 = Value.obj 0 "A" [] :=
  ⟨rfl, rfl⟩

/-- C1 counterexample: register a recipe with `cached=True` whose
target returns a fresh but *falsy* object — a factory producing a new
empty list per call (`heapL`).  The call after the first does not
return the instance the first call produced: the falsy result defeats
the `if not self.instance` cache test (dependency.py line 51), the
target is invoked again (the log records two invocations of `L`) and a
distinct object (different allocation id) comes back. -/
theorem C1_counterexample :
    (Container.resolve contD 2 heapL "L").1 = Value.vlist 0 [] ∧
    (Container.resolve contD 2
      (Container.resolve contD 2 heapL "L").2 "L").1 = Value.vlist 1 [] ∧
    Value.vlist 0 [] ≠ Value.vlist 1 [] ∧
    (Container.resolve contD 2
      (Container.resolve contD 2 heapL "L").2 "L").2.alloc.log = ["L", "L"] := by
  refine ⟨rfl, rfl, ?_, rfl⟩
  intro hx
  injection hx with h1 h2
  exact absurd h1 (by decide)

/-- C1 amended: for a recipe registered with `cached=true`, once the
stored instance is *truthy*, every further `resolve` returns that
identical instance, the recipe's own target is not re-invoked
(`Dependency.resolve` leaves the allocation state untouched) and the
entry is left unchanged; and the first call on an empty cache slot
(shown for a recipe without annotated parameters) invokes the target
once and stores its result.  When the target returns a falsy value the
`if not self.instance` test fails and the target is re-invoked on every
call (see the counterexample). -/
theorem C1_cached_truthy_identity :
    (∀ (d : Dependency) (kwargs : List (String × Value)) (a : Alloc),
       d.cached = true → d.inst.truthy = true →
       Dependency.resolve d kwargs a = (d.inst, d, a)) ∧
    (∀ (c : Container) (fuel : Nat) (h : Heap) (s : String) (dep : Dependency),
       lookupKey (dictAt h c.ref) s = Option.some dep → dep.cached = true →
       dep.inst.truthy = true →
       (Container.resolve c (fuel + 1) h s).1 = dep.inst ∧
       lookupKey (dictAt (Container.resolve c (fuel + 1) h s).2 c.ref) s =
         Option.some dep) ∧
    (∀ (c : Container) (fuel : Nat) (h : Heap) (s : String) (dep : Dependency),
       lookupKey (dictAt h c.ref) s = Option.some dep → dep.cached = true →
       dep.types = [] → dep.inst = Value.none →
       (Container.resolve c (fuel + 1) h s).1 =
         (callTarget dep.target dep.defaults h.alloc).1 ∧
       lookupKey (dictAt (Container.resolve c (fuel + 1) h s).2 c.ref) s =
         Option.some
           { dep with inst := (callTarget dep.target dep.defaults h.alloc).1 }) := by
  refine ⟨?_, ?_, ?_⟩
  · intro d kwargs a hc ht
    unfold Dependency.resolve
    simp [hc, ht]
  · intro c fuel h s dep hl hc ht
    have hst : Stable dep := fun _ => ht
    simp only [Container.resolve, hl]
    set P := resolveTypesWith (Container.resolve c fuel) h dep.types dep.defaults
      with hP
    have hp : lookupKey (dictAt P.2 c.ref) s = Option.some dep :=
      resolveTypesWith_preserve _
        (fun h' => lookupKey (dictAt h' c.ref) s = Option.some dep)
        (fun h' t' hq => resolve_preserve fuel c h' t' s dep hq hst)
        dep.types h dep.defaults hl
    rw [hp]
    have hd : Dependency.resolve dep P.1 P.2.alloc = (dep.inst, dep, P.2.alloc) := by
      unfold Dependency.resolve; simp [hc, ht]
    simp only [hd]
    refine ⟨trivial, ?_⟩
    rw [dictAt_setEntry_self _ _ _ _ _ (lookup_dictAt_lt _ _ _ _ hp),
      lookupKey_setKey_self]
  · intro c fuel h s dep hl hc hty hinst
    simp only [Container.resolve, hl, hty, resolveTypesWith]
    have hd : Dependency.resolve dep dep.defaults h.alloc =
        ((callTarget dep.target dep.defaults h.alloc).1,
         { dep with inst := (callTarget dep.target dep.defaults h.alloc).1 },
         (callTarget dep.target dep.defaults h.alloc).2) := by
      unfold Dependency.resolve
      simp [hc, hinst, Value.truthy]
    rw [hd]
    refine ⟨rfl, ?_⟩
    rw [dictAt_setEntry_self _ _ _ _ _ (lookup_dictAt_lt _ _ _ _ hl),
      lookupKey_setKey_self, hty]

/-- C1 witness: for the concrete cached registration of `A` after its
first resolution (`heapAc1`, whose stored instance is the truthy object
`Value.obj 0 "A" []`), the dependency-level resolve returns the stored
instance without touching the allocation state, and the
container-level resolve returns that identical instance. -/
theorem C1_witness :
    Dependency.resolve depA1 [] { ctr := 5, log := [] } =
      (Value.obj 0 "A" [], depA1, { ctr := 5, log := [] }) ∧
    (Container.resolve contD 3 heapAc1 "A").1 = Value.obj 0 "A" [] ∧
    (Container.resolve contD 1 heapAcached "A").1 =
      (callTarget depA1.target [] heapAcached.alloc).1 :=
  ⟨C1_cached_truthy_identity.1 depA1 [] { ctr := 5, log := [] } rfl rfl,
   (C1_cached_truthy_identity.2.1 contD 2 heapAc1 "A" depA1 rfl rfl rfl).1,
   (C1_cached_truthy_identity.2.2 contD 0 heapAcached "A"
     (Dependency.init clsA true) rfl rfl rfl rfl).1⟩

/-- One unfolding step of `Container.resolve` at positive fuel, stated
so proofs can open exactly one recursion layer. -/
theorem resolve_succ (c : Container) (n : Nat) (h : Heap) (s : String) :
    Container.resolve c (n + 1) h s =
      match lookupKey (dictAt h c.ref) s with
      | Option.none => (Value.none, h)
      | Option.some dep =>
        let p := resolveTypesWith (Container.resolve c n) h dep.types
          dep.defaults
        match lookupKey (dictAt p.2 c.ref) s with
        | Option.none => (Value.none, p.2)
        | Option.some dep2 =>
          let q := Dependency.resolve dep2 p.1 p.2.alloc
          (q.1, setEntry p.2 c.ref s q.2.1 q.2.2) := rfl

/-- Resolving a self-registered parameterless class: the constructor
runs on the current allocation counter and the entry is written back
unchanged. -/
theorem resolve_plain (c : Container) (fuel : Nat) (h : Heap) (s : String)
    (hl : lookupKey (dictAt h c.ref) s =
      Option.some (Dependency.init (plainClass s) false)) :
    Container.resolve c (fuel + 1) h s =
      (Value.obj h.alloc.ctr s [],
       setEntry h c.ref s (Dependency.init (plainClass s) false)
         { ctr := h.alloc.ctr + 1, log := h.alloc.log ++ [s] }) := by
  simp [Container.resolve, hl, Dependency.init, plainClass, resolveTypesWith,
    Dependency.resolve, callTarget]

/-- C3: `resolve` starts from the recipe's parameter defaults and then
overrides each annotated parameter whose declared type resolves to a
non-`None` value (container.py lines 76-83).  Shown on a recipe whose
single parameter carries both a literal default and an annotation: if
the annotated type is unregistered, the literal default is what the
target receives; if it resolves to a non-`None` value, that value
overrides the default. -/
theorem C3_override_priority :
    (∀ (c : Container) (fuel : Nat) (h : Heap) (sA sB p : String) (d : Value),
       lookupKey (dictAt h c.ref) sA = Option.some (Dependency.init
         { name := sA,
           params := [{ name := p, anno := Option.some sB,
                        default := Option.some d }],
           kind := TargetKind.mkObj, truthy := true } false) →
       lookupKey (dictAt h c.ref) sB = Option.none →
       (Container.resolve c (fuel + 1) h sA).1 =
         Value.obj h.alloc.ctr sA [(p, d)]) ∧
    (∀ (c : Container) (fuel : Nat) (h : Heap) (sA sB p : String)
       (d v : Value) (h' : Heap),
       lookupKey (dictAt h c.ref) sA = Option.some (Dependency.init
         { name := sA,
           params := [{ name := p, anno := Option.some sB,
                        default := Option.some d }],
           kind := TargetKind.mkObj, truthy := true } false) →
       Container.resolve c fuel h sB = (v, h') →
       v.isNone = false →
       (Container.resolve c (fuel + 1) h sA).1 =
         Value.obj h'.alloc.ctr sA [(p, v)]) := by
  constructor
  · intro c fuel h sA sB p d hlA hlB
    have e1 : Container.resolve c fuel h sB = (Value.none, h) :=
      resolve_not_found c fuel h sB hlB
    simp [Container.resolve, hlA, e1, Dependency.init, resolveTypesWith,
      Dependency.resolve, callTarget, Value.isNone]
  · intro c fuel h sA sB p d v h' hlA hres hv
    have hst : Stable (Dependency.init
        { name := sA,
          params := [{ name := p, anno := Option.some sB,
                       default := Option.some d }],
          kind := TargetKind.mkObj, truthy := true } false) :=
      fun hcc => Bool.noConfusion hcc
    have hp := resolve_preserve fuel c h sB sA _ hlA hst
    rw [hres] at hp
    simp [Container.resolve, hlA, hres, hp, hv, Dependency.init,
      resolveTypesWith, Dependency.resolve, callTarget, setKey]

/-- C3 witness: with `A(p: B = 3)` registered alone, `resolve(A)`
passes the literal default `3`; after also registering `B`, the
resolved `B` instance overrides the default. -/
theorem C3_witness :
    (Container.resolve contD 1 heapPD "A").1 =
      Value.obj 0 "A" [("p", Value.vint 3)] ∧
    (Container.resolve contD 2 heapPDB "A").1 =
      Value.obj 1 "A" [("p", Value.obj 0 "B" [])] :=
  ⟨C3_override_priority.1 contD 0 heapPD "A" "B" "p" (Value.vint 3) rfl rfl,
   C3_override_priority.2 contD 1 heapPDB "A" "B" "p" (Value.vint 3)
     (Value.obj 0 "B" []) (Container.resolve contD 1 heapPDB "B").2 rfl rfl rfl⟩

/-- C4: with `A` (whose constructor takes `b: B`) and `B` both
registered, `resolve(A)` builds a fresh `B` instance recursively and
returns a fresh `A` instance whose `b` attribute is that `B`
instance. -/
theorem C4_recursive_resolution (c : Container) (fuel : Nat) (h : Heap)
    (sA sB pb : String) (hne : sA ≠ sB)
    (hlA : lookupKey (dictAt h c.ref) sA = Option.some (Dependency.init
      { name := sA,
        params := [{ name := pb, anno := Option.some sB,
                     default := Option.none }],
        kind := TargetKind.mkObj, truthy := true } false))
    (hlB : lookupKey (dictAt h c.ref) sB =
      Option.some (Dependency.init (plainClass sB) false)) :
    (Container.resolve c (fuel + 1 + 1) h sA).1 =
      Value.obj (h.alloc.ctr + 1) sA [(pb, Value.obj h.alloc.ctr sB [])] := by
  have hB := resolve_plain c fuel h sB hlB
  have href : c.ref < h.dicts.length := lookup_dictAt_lt _ _ _ _ hlB
  have hlA' : lookupKey (dictAt (setEntry h c.ref sB
      (Dependency.init (plainClass sB) false)
      { ctr := h.alloc.ctr + 1, log := h.alloc.log ++ [sB] }) c.ref) sA =
      Option.some (Dependency.init
        { name := sA,
          params := [{ name := pb, anno := Option.some sB,
                       default := Option.none }],
          kind := TargetKind.mkObj, truthy := true } false) := by
    rw [dictAt_setEntry_self _ _ _ _ _ href,
      lookupKey_setKey_ne _ _ _ _ (Ne.symm hne)]
    exact hlA
  have hdt : (Dependency.init
      { name := sA,
        params := [{ name := pb, anno := Option.some sB,
                     default := Option.none }],
        kind := TargetKind.mkObj, truthy := true } false).types =
      [(pb, sB)] := rfl
  have hdd : (Dependency.init
      { name := sA,
        params := [{ name := pb, anno := Option.some sB,
                     default := Option.none }],
        kind := TargetKind.mkObj, truthy := true } false).defaults =
      ([] : List (String × Value)) := rfl
  rw [resolve_succ]
  simp only [hlA, hdt, hdd, resolveTypesWith]
  simp only [hB]
  simp [Value.isNone, setKey]
  simp only [hlA']
  rfl

/-- C4 witness: the concrete two-registration state `heapAB` resolves
`A` to a fresh object whose `b` field is a fresh `B` instance. -/
theorem C4_witness :
    (Container.resolve contD 2 heapAB "A").1 =
      Value.obj 1 "A" [("b", Value.obj 0 "B" [])] :=
  C4_recursive_resolution contD 0 heapAB "A" "B" "b" (by decide) rfl rfl

theorem depResolve_noncached_mkObj (d : Dependency)
    (kwargs : List (String × Value)) (a : Alloc) (hc : d.cached = false)
    (hk : d.target.kind = TargetKind.mkObj) :
    Dependency.resolve d kwargs a =
      (Value.obj a.ctr d.target.name kwargs, d,
       { ctr := a.ctr + 1, log := a.log ++ [d.target.name] }) := by
  unfold Dependency.resolve callTarget
  simp [hc, hk]

/-- One full `Container.resolve` step on a non-cached recipe whose
target is a class constructor: the argument-assembly pass runs, then a
fresh object is allocated and the entry is written back unchanged. -/
theorem resolve_noncached_mkObj (c : Container) (fuel : Nat) (h : Heap)
    (s : String) (dep : Dependency)
    (hl : lookupKey (dictAt h c.ref) s = Option.some dep)
    (hc : dep.cached = false) (hk : dep.target.kind = TargetKind.mkObj) :
    Container.resolve c (fuel + 1) h s =
      (Value.obj (rtwOf c fuel h dep).2.alloc.ctr dep.target.name
        (rtwOf c fuel h dep).1,
       setEntry (rtwOf c fuel h dep).2 c.ref s dep
         { ctr := (rtwOf c fuel h dep).2.alloc.ctr + 1,
           log := (rtwOf c fuel h dep).2.alloc.log ++ [dep.target.name] }) := by
  have hst : Stable dep := fun hcc => by
    rw [hc] at hcc; exact Bool.noConfusion hcc
  have hp : lookupKey (dictAt (rtwOf c fuel h dep).2 c.ref) s =
      Option.some dep :=
    resolveTypesWith_preserve _
      (fun h' => lookupKey (dictAt h' c.ref) s = Option.some dep)
      (fun h' t' hq => resolve_preserve fuel c h' t' s dep hq hst)
      dep.types h dep.defaults hl
  rw [resolve_succ]
  simp only [rtwOf] at hp
  simp only [hl, hp, depResolve_noncached_mkObj dep _ _ hc hk, rtwOf]

theorem rtw_ctr_mono (c : Container) (fuel : Nat) (h : Heap)
    (dep : Dependency) :
    h.alloc.ctr ≤ (rtwOf c fuel h dep).2.alloc.ctr :=
  resolveTypesWith_preserve _ (fun h' => h.alloc.ctr ≤ h'.alloc.ctr)
    (fun h' t' hq => Nat.le_trans hq (resolve_alloc_mono fuel c h' t').1)
    dep.types h dep.defaults (Nat.le_refl _)

theorem rtw_log_mono (c : Container) (fuel : Nat) (h : Heap)
    (dep : Dependency) :
    ∃ e, (rtwOf c fuel h dep).2.alloc.log = h.alloc.log ++ e :=
  resolveTypesWith_preserve _
    (fun h' => ∃ e, h'.alloc.log = h.alloc.log ++ e)
    (fun h' t' hq => by
      obtain ⟨e1, he1⟩ := hq
      obtain ⟨_, e2, he2⟩ := resolve_alloc_mono fuel c h' t'
      exact ⟨e1 ++ e2, by rw [he2, he1, List.append_assoc]⟩)
    dep.types h dep.defaults ⟨[], by simp⟩

/-- C6 counterexample: a recipe registered with `cached=False` whose
target is a factory returning one pre-existing object
(`container.register(A, lambda: x)`, `heapConst`).  The target is
invoked on both calls (log `["F", "F"]`), but the two resolutions are
the *identical* object, not distinct instances. -/
theorem C6_counterexample :
    (Container.resolve contD 2 heapConst "A").1 = Value.obj 7 "X" [] ∧
    (Container.resolve contD 2
      (Container.resolve contD 2 heapConst "A").2 "A").1 =
        Value.obj 7 "X" [] ∧
    (Container.resolve contD 2
      (Container.resolve contD 2 heapConst "A").2 "A").2.alloc.log =
        ["F", "F"] :=
  ⟨rfl, rfl, rfl⟩

/-- C6 amended: a recipe registered with `cached=false` invokes its
target on every `resolve` call (each call appends the target to the
invocation log); when that target is a class constructor, which
allocates a fresh object per invocation, the two successive resolutions
return objects with distinct identities.  A target returning a
pre-existing value instead yields that same value each time (see the
counterexample). -/
theorem C6_noncached_distinct (c : Container) (fuel : Nat) (h : Heap)
    (s : String) (dep : Dependency)
    (hl : lookupKey (dictAt h c.ref) s = Option.some dep)
    (hc : dep.cached = false) (hk : dep.target.kind = TargetKind.mkObj) :
    ∃ i1 a1 i2 a2,
      (Container.resolve c (fuel + 1) h s).1 =
        Value.obj i1 dep.target.name a1 ∧
      (Container.resolve c (fuel + 1)
        (Container.resolve c (fuel + 1) h s).2 s).1 =
          Value.obj i2 dep.target.name a2 ∧
      i1 ≠ i2 ∧
      (∃ l1, (Container.resolve c (fuel + 1) h s).2.alloc.log =
        h.alloc.log ++ l1 ++ [dep.target.name]) ∧
      (∃ l2, (Container.resolve c (fuel + 1)
          (Container.resolve c (fuel + 1) h s).2 s).2.alloc.log =
        (Container.resolve c (fuel + 1) h s).2.alloc.log ++ l2 ++
          [dep.target.name]) := by
  have hst : Stable dep := fun hcc => by
    rw [hc] at hcc; exact Bool.noConfusion hcc
  have hp : lookupKey (dictAt (rtwOf c fuel h dep).2 c.ref) s =
      Option.some dep :=
    resolveTypesWith_preserve _
      (fun h' => lookupKey (dictAt h' c.ref) s = Option.some dep)
      (fun h' t' hq => resolve_preserve fuel c h' t' s dep hq hst)
      dep.types h dep.defaults hl
  have h1 := resolve_noncached_mkObj c fuel h s dep hl hc hk
  have hl2 : lookupKey (dictAt (setEntry (rtwOf c fuel h dep).2 c.ref s dep
      { ctr := (rtwOf c fuel h dep).2.alloc.ctr + 1,
        log := (rtwOf c fuel h dep).2.alloc.log ++ [dep.target.name] })
        c.ref) s = Option.some dep := by
    rw [dictAt_setEntry_self _ _ _ _ _ (lookup_dictAt_lt _ _ _ _ hp),
      lookupKey_setKey_self]
  have h2 := resolve_noncached_mkObj c fuel
    (setEntry (rtwOf c fuel h dep).2 c.ref s dep
      { ctr := (rtwOf c fuel h dep).2.alloc.ctr + 1,
        log := (rtwOf c fuel h dep).2.alloc.log ++ [dep.target.name] })
    s dep hl2 hc hk
  rw [h1]
  simp only [h2]
  refine ⟨(rtwOf c fuel h dep).2.alloc.ctr, (rtwOf c fuel h dep).1, _, _,
    rfl, rfl, ?_, ?_, ?_⟩
  · have hmono := rtw_ctr_mono c fuel
      (setEntry (rtwOf c fuel h dep).2 c.ref s dep
        { ctr := (rtwOf c fuel h dep).2.alloc.ctr + 1,
          log := (rtwOf c fuel h dep).2.alloc.log ++ [dep.target.name] }) dep
    have heq : (setEntry (rtwOf c fuel h dep).2 c.ref s dep
        { ctr := (rtwOf c fuel h dep).2.alloc.ctr + 1,
          log := (rtwOf c fuel h dep).2.alloc.log ++
            [dep.target.name] }).alloc.ctr =
        (rtwOf c fuel h dep).2.alloc.ctr + 1 := rfl
    rw [heq] at hmono
    omega
  · obtain ⟨e, he⟩ := rtw_log_mono c fuel h dep
    exact ⟨e, by simp [setEntry, he]⟩
  · obtain ⟨e, he⟩ := rtw_log_mono c fuel
      (setEntry (rtwOf c fuel h dep).2 c.ref s dep
        { ctr := (rtwOf c fuel h dep).2.alloc.ctr + 1,
          log := (rtwOf c fuel h dep).2.alloc.log ++ [dep.target.name] }) dep
    refine ⟨e, ?_⟩
    simp only [setEntry] at he ⊢
    rw [he]

/-- C6 witness: the plain non-cached registration of `A` (`heapA`)
resolved twice yields objects with allocation ids 0 and 1 — distinct
instances — and the log records one invocation per call. -/
theorem C6_witness :
    ∃ i1 a1 i2 a2,
      (Container.resolve contD 1 heapA "A").1 = Value.obj i1 "A" a1 ∧
      (Container.resolve contD 1
        (Container.resolve contD 1 heapA "A").2 "A").1 =
          Value.obj i2 "A" a2 ∧
      i1 ≠ i2 ∧
      (∃ l1, (Container.resolve contD 1 heapA "A").2.alloc.log =
        heapA.alloc.log ++ l1 ++ ["A"]) ∧
      (∃ l2, (Container.resolve contD 1
          (Container.resolve contD 1 heapA "A").2 "A").2.alloc.log =
        (Container.resolve contD 1 heapA "A").2.alloc.log ++ l2 ++ ["A"]) :=
  C6_noncached_distinct contD 0 heapA "A" (Dependency.init clsA false)
    rfl rfl rfl

/-- C8: in the synthesized constructor's fallback chain, registry
resolution is attempted before the literal default — for any field not
explicitly supplied whose declared type is registered and resolves to a
non-`None` value, the resolved value is used whatever literal default
the field carries; and, end to end, constructing `Service(name:str,
db:Database=None)` with `Database` registered fills `db` with a fresh
`Database` instance, not the literal default `None`. -/
theorem C8_registry_before_default :
    (∀ (c : Container) (fuel : Nat) (h : Heap) (f : FieldSpec),
       Container.has c h f.type = true →
       (Container.resolve c fuel h f.type).1.isNone = false →
       (fillField c fuel h f).1 =
         Option.some (Container.resolve c fuel h f.type).1) ∧
    (bindCall "Service" svcFields contD 3 heapDb [Value.vstr "MyService"]
      []).1 =
      Except.ok (Value.obj 1 "Service"
        [("name", Value.vstr "MyService"),
         ("db", Value.obj 0 "Database" [])]) := by
  constructor
  · intro c fuel h f hhas hnn
    simp [fillField, hhas, hnn]
  · rfl

/-- C8 witness: the `db: Database = None` field, omitted at the call,
is filled from the registry with the resolved `Database` instance. -/
theorem C8_witness :
    (fillField contD 3 heapDb
      { name := "db", type := "Database",
        default := Option.some Value.none }).1 =
      Option.some (Value.obj 0 "Database" []) :=
  C8_registry_before_default.1 contD 3 heapDb
    { name := "db", type := "Database", default := Option.some Value.none }
    rfl rfl

theorem checkNamed_ok (fields : List FieldSpec) :
    ∀ kwargs : List (String × Value),
      (∀ kv ∈ kwargs, ∃ f ∈ fields, f.name = kv.1) →
      checkNamed fields [] kwargs = Option.none := by
  intro kwargs
  induction kwargs with
  | nil => intro _; rfl
  | cons kv rest ih =>
    intro hk
    obtain ⟨k, v⟩ := kv
    obtain ⟨f, hf, hname⟩ := hk (k, v) (List.mem_cons_self _ _)
    have hall : fields.all (fun g => g.name ≠ k) = false := by
      rw [List.all_eq_false]
      exact ⟨f, hf, by simp [hname]⟩
    simp only [checkNamed, lookupKey, Option.isSome_none, Bool.false_eq_true,
      if_false, hall]
    exact ih (fun kv' h' => hk kv' (List.mem_cons_of_mem _ h'))

theorem fillAll_unreg (c : Container) (fuel : Nat)
    (bound : List (String × Value)) :
    ∀ (fields : List FieldSpec) (h : Heap),
      (∀ f ∈ fields, Container.has c h f.type = false) →
      fillAll c fuel bound h fields =
        (fields.map (fun f => (f.name,
          match lookupKey bound f.name with
          | Option.some v => Option.some v
          | Option.none => f.default)), h) := by
  intro fields
  induction fields with
  | nil => intro h _; rfl
  | cons f rest ih =>
    intro h hu
    have hf := hu f (List.mem_cons_self _ _)
    have hrest := ih h (fun g hg => hu g (List.mem_cons_of_mem _ hg))
    simp only [fillAll]
    cases hb : lookupKey bound f.name with
    | some v => simp [hb, hrest]
    | none =>
      have hff : fillField c fuel h f = (f.default, h) := by
        simp [fillField, hf]
      simp [hb, hff, hrest]

theorem missing_of_fill (bound : List (String × Value)) :
    ∀ fields : List FieldSpec,
      ((fields.map (fun f => (f.name,
        match lookupKey bound f.name with
        | Option.some v => Option.some v
        | Option.none => f.default))).filter
          (fun x => x.2.isNone)).map Prod.fst =
        missingOf bound fields := by
  intro fields
  induction fields with
  | nil => rfl
  | cons f rest ih =>
    cases hb : lookupKey bound f.name with
    | some v =>
      simp only [missingOf] at ih ⊢
      simp [List.filter, hb, ih]
    | none =>
      cases hd : f.default with
      | some d =>
        simp only [missingOf] at ih ⊢
        simp [List.filter, hb, hd, ih]
      | none =>
        simp only [missingOf] at ih ⊢
        simp [List.filter, hb, hd, ih]

/-- C9: when one or more declared fields remain unresolved after
explicit arguments, registry auto-fill and literal defaults have all
been tried (shown with the declared types unregistered, matching the
test scenario), the call fails with one aggregated MissingArguments
error whose list is exactly the unresolved fields — every missing field
is named, no resolved field is — the message joins them with commas,
and no object is produced (the result is the error, and the state is
returned unchanged). -/
theorem C9_missing_aggregated (clsName : String) (fields : List FieldSpec)
    (c : Container) (fuel : Nat) (h : Heap)
    (kwargs : List (String × Value))
    (hunreg : ∀ f ∈ fields, Container.has c h f.type = false)
    (hkeys : ∀ kv ∈ kwargs, ∃ f ∈ fields, f.name = kv.1)
    (hmiss : missingOf kwargs fields ≠ []) :
    bindCall clsName fields c fuel h [] kwargs =
      (Except.error (BindError.missingArguments (missingOf kwargs fields)),
       h) ∧
    (∀ n, n ∈ missingOf kwargs fields ↔
      ∃ f ∈ fields, f.name = n ∧ lookupKey kwargs f.name = Option.none ∧
        f.default = Option.none) ∧
    BindError.message (BindError.missingArguments (missingOf kwargs fields)) =
      "Missing arguments: " ++
        String.intercalate ", " (missingOf kwargs fields) := by
  refine ⟨?_, ?_, rfl⟩
  · have hpos : bindPositional fields [] =
        Except.ok ([] : List (String × Value)) := by
      simp [bindPositional]
    have hchk : checkNamed fields [] kwargs = Option.none :=
      checkNamed_ok fields kwargs hkeys
    have hempty : (missingOf kwargs fields).isEmpty = false := by
      cases hm : missingOf kwargs fields with
      | nil => exact absurd hm hmiss
      | cons x xs => rfl
    simp only [bindCall, hpos, hchk, List.nil_append,
      fillAll_unreg c fuel kwargs fields h hunreg, missing_of_fill,
      hempty, Bool.false_eq_true, if_false]
  · intro n
    simp only [missingOf, List.mem_map, List.mem_filter, Bool.and_eq_true,
      Option.isNone_iff_eq_none]
    constructor
    · rintro ⟨f, ⟨hf, hlk, hd⟩, hn⟩
      exact ⟨f, hf, hn, hlk, hd⟩
    · rintro ⟨f, hf, hn, hlk, hd⟩
      exact ⟨f, ⟨hf, hlk, hd⟩, hn⟩

/-- C9 witness: `MultiClass(a=1, c=True)` with fields `a b c d` (all of
unregistered types, no defaults) fails with the aggregated error
naming exactly `b` and `d`, and no object is constructed. -/
theorem C9_witness :
    bindCall "MultiClass" multiFields contD 3 heap0 []
      [("a", Value.vint 1), ("c", Value.vbool true)] =
      (Except.error (BindError.missingArguments ["b", "d"]), heap0) :=
  (C9_missing_aggregated "MultiClass" multiFields contD 3 heap0
    [("a", Value.vint 1), ("c", Value.vbool true)]
    (by decide) (by decide) (by decide)).1
